import Mathlib

/-!
# Voice-disguise effect: constants, state layout and per-frame scalar updates

The header `src/audio_effect/vocoder.h` fixes the tuning constants and the layout of the
two state records `residual_estimator` and `vocoder_effect`.  The bodies of the per-frame
updates are not part of the header; they are taken from sections 3, 4.3, 4.5 and 4.6 of the
specification and every such definition says so in its doc comment.

Numbers that are `float` in the header are embedded as rationals: every statement below is
about the exact recurrences, not about binary32 rounding.
-/

namespace Vocoder

/-! ## Constants of `vocoder.h` -/

/-- Long analysis window, in milliseconds (`#define WIN_L1 20`). -/
def WIN_L1 : Nat := 20

/-- Middle analysis window, in milliseconds (`#define WIN_L2 10`). -/
def WIN_L2 : Nat := 10

/-- Short trailing analysis window, in milliseconds (`#define WIN_L3 10`). -/
def WIN_L3 : Nat := 10

/-- Order of the synthesis filter (`#define Z_REST_LPC_ORDER 16`). -/
def Z_REST_LPC_ORDER : Nat := 16

/-- Length of the raw sample history, in milliseconds (`#define Z_REST_BUF_SZ_MS 20`). -/
def Z_REST_BUF_SZ_MS : Nat := 20

/-- Header constant `#define Z_REST_WIN_L1 5`. -/
def Z_REST_WIN_L1 : Nat := 5

/-- Header constant `#define Z_REST_WIN_L2 10`. -/
def Z_REST_WIN_L2 : Nat := 10

/-- Header constant `#define Z_REST_WIN_L3 5`. -/
def Z_REST_WIN_L3 : Nat := 5

/-- Internal processing rate in kHz (`#define PROC_FS_KHZ 16`). -/
def PROC_FS_KHZ : Nat := 16

/-- Attack coefficient of the mix smoother (`#define MIX_SMTH_UP 0.5f`). -/
def MIX_SMTH_UP : ℚ := 0.5

/-- Decay coefficient of the mix smoother (`#define MIX_SMTH_DOWN 0.25f`). -/
def MIX_SMTH_DOWN : ℚ := 0.25

/-- Rise coefficient of the minimum tracker (`#define E_MIN_TRACK_SMTH_UP 0.002f`). -/
def E_MIN_TRACK_SMTH_UP : ℚ := 0.002

/-- Fall coefficient of the minimum tracker (`#define E_MIN_TRACK_SMTH_DOWN 0.2f`). -/
def E_MIN_TRACK_SMTH_DOWN : ℚ := 0.2

/-- Energy floor (`#define E_MIN 20.0f`). -/
def E_MIN : ℚ := 20.0

/-- Rise coefficient of the maximum tracker (`#define E_MAX_TRACK_SMTH_UP 0.1f`). -/
def E_MAX_TRACK_SMTH_UP : ℚ := 0.1

/-- Fall coefficient of the maximum tracker (`#define E_MAX_TRACK_SMTH_DOWN 0.005f`). -/
def E_MAX_TRACK_SMTH_DOWN : ℚ := 0.005

/-! ## State records of `vocoder.h`

`Z_MAX_FS_KHZ` comes from `common_settings.h`, which is not among the sources; it is a
parameter of everything that depends on it. -/

/-- Number of elements of `float win1[Z_MAX_FS_KHZ*WIN_L1]`. -/
def win1_capacity (Z_MAX_FS_KHZ : Nat) : Nat := Z_MAX_FS_KHZ * WIN_L1

/-- Number of elements of `float win3[Z_MAX_FS_KHZ*WIN_L3]`. -/
def win3_capacity (Z_MAX_FS_KHZ : Nat) : Nat := Z_MAX_FS_KHZ * WIN_L3

/-- Number of elements of `int16_t buf[Z_MAX_FS_KHZ*Z_REST_BUF_SZ_MS]`. -/
def buf_capacity (Z_MAX_FS_KHZ : Nat) : Nat := Z_MAX_FS_KHZ * Z_REST_BUF_SZ_MS

/-- The record `struct residual_estimator`: two analysis windows and the sample history,
each an array of fixed size. -/
structure residual_estimator (Z_MAX_FS_KHZ : Nat) where
  win1 : Fin (win1_capacity Z_MAX_FS_KHZ) → ℚ
  win3 : Fin (win3_capacity Z_MAX_FS_KHZ) → ℚ
  buf : Fin (buf_capacity Z_MAX_FS_KHZ) → Int

/-- The record `struct vocoder_effect`.  The two resampler pointers are kept as handles. -/
structure vocoder_effect (Z_MAX_FS_KHZ : Nat) where
  lpc_synth_state : Fin Z_REST_LPC_ORDER → ℚ
  fs_khz : Int
  resampler_in : Nat
  resampler_out : Nat
  rest : residual_estimator Z_MAX_FS_KHZ
  cnt : Int
  samples_since_pulse : Int
  mix_smth : ℚ
  e_min_track : ℚ
  e_max_track : ℚ

/-! ## Per-frame updates (bodies taken from the specification) -/

/-- Modelled from the spec: the initialisation of section 3 and 4.6 (its body is in the
implementation file of the effect, which is not among the sources).  All sub-states are
zero-initialised; the sample rate and the two resamplers are the ones given. -/
def vocoder_init (Z_MAX_FS_KHZ : Nat) (fs_khz : Int) (resampler_in resampler_out : Nat) :
    vocoder_effect Z_MAX_FS_KHZ :=
  { lpc_synth_state := fun _ => 0
    fs_khz := fs_khz
    resampler_in := resampler_in
    resampler_out := resampler_out
    rest := { win1 := fun _ => 0, win3 := fun _ => 0, buf := fun _ => 0 }
    cnt := 0
    samples_since_pulse := 0
    mix_smth := 0
    e_min_track := 0
    e_max_track := 0 }

/-- Modelled from the spec: the reset of sections 3 and 4.6 (its body is in the
implementation file of the effect, which is not among the sources).  It zeroes the trackers
(`mix_smth`, `e_min_track`, `e_max_track`), the filter state and the pulse counter and keeps
the sample rate, the resamplers and the allocated buffers.  The spec does not say what
becomes of the content of the buffers or of `cnt`; they are left as they are here and no
statement below is about them. -/
def vocoder_reset {Z : Nat} (s : vocoder_effect Z) : vocoder_effect Z :=
  { s with
    lpc_synth_state := fun _ => 0
    samples_since_pulse := 0
    mix_smth := 0
    e_min_track := 0
    e_max_track := 0 }

/-- Modelled from the spec: the maximum tracker of section 4.3 (the body of the per-frame
function is not among the sources):
`if E > e_max_track: e_max_track += up_max * (E - e_max_track)`
`else: e_max_track += down_max * (E - e_max_track)`. -/
def e_max_update (e_max_track E : ℚ) : ℚ :=
  if E > e_max_track then e_max_track + E_MAX_TRACK_SMTH_UP * (E - e_max_track)
  else e_max_track + E_MAX_TRACK_SMTH_DOWN * (E - e_max_track)

/-- Modelled from the spec: the one-pole part of the minimum tracker of section 4.3, before
the floor (the body of the per-frame function is not among the sources):
`if E > e_min_track: e_min_track += up_min * (E - e_min_track)`
`else: e_min_track += down_min * (E - e_min_track)`. -/
def e_min_smooth (e_min_track E : ℚ) : ℚ :=
  if E > e_min_track then e_min_track + E_MIN_TRACK_SMTH_UP * (E - e_min_track)
  else e_min_track + E_MIN_TRACK_SMTH_DOWN * (E - e_min_track)

/-- Modelled from the spec: the minimum tracker of section 4.3, the one-pole step followed
by `e_min_track = max(e_min_track, E_MIN)` (the body of the per-frame function is not among
the sources). -/
def e_min_update (e_min_track E : ℚ) : ℚ :=
  max (e_min_smooth e_min_track E) E_MIN

/-- Modelled from the spec: the EnvelopeTracker update of section 4.3 on the effect state
(the body of the per-frame function is not among the sources).  Only the two trackers
change. -/
def envelope_update {Z : Nat} (s : vocoder_effect Z) (E : ℚ) : vocoder_effect Z :=
  { s with
    e_max_track := e_max_update s.e_max_track E
    e_min_track := e_min_update s.e_min_track E }

/-- Modelled from the spec: the function `clamp(x, lo, hi)` that the gate formula of
section 4.3 names (its body is not among the sources): `x` limited to the interval from
`lo` to `hi`. -/
def clamp (x lo hi : ℚ) : ℚ :=
  if x < lo then lo else if hi < x then hi else x

/-- Modelled from the spec: the gate of section 4.3,
`g = clamp((E - e_min_track)/(e_max_track - e_min_track), 0, 1)` (the body of the per-frame
function is not among the sources).  With a denominator other than zero the result is the
clamped quotient.  With a zero denominator the quotient of the `float` fields of the header
is infinite or not a number; the rational embedding has no such values, so it gives no
result there, and no statement below is about that case. -/
def gate (E e_min_track e_max_track : ℚ) : Option ℚ :=
  if e_max_track - e_min_track = 0 then none
  else some (clamp ((E - e_min_track) / (e_max_track - e_min_track)) 0 1)

/-- The gate read off an effect state. -/
def gate_of {Z : Nat} (s : vocoder_effect Z) (E : ℚ) : Option ℚ :=
  gate E s.e_min_track s.e_max_track

/-- Modelled from the spec: the MixController update of section 4.5 (the body of the
per-frame function is not among the sources):
`if target > mix: mix += MIX_SMTH_UP * (target - mix)`
`else: mix += MIX_SMTH_DOWN * (target - mix)`. -/
def mix_update (mix target : ℚ) : ℚ :=
  if target > mix then mix + MIX_SMTH_UP * (target - mix)
  else mix + MIX_SMTH_DOWN * (target - mix)

/-- Modelled from the spec: the output sample of section 4.5,
`mix * wet + (1 - mix) * dry`, for two integer samples (the body of the per-frame function
is not among the sources). -/
def mix_output (mix : ℚ) (wet dry : Int) : ℚ :=
  mix * (wet : ℚ) + (1 - mix) * (dry : ℚ)

/-- Modelled from the spec: the tracker and mix part of one frame, in the order of the data
flow of section 2 (the body of the per-frame function is not among the sources): the
EnvelopeTracker update with the frame energy, then the gate read off the updated trackers,
then the MixController update toward that gate.  There is no result when the gate has no
value. -/
def track_frame {Z : Nat} (s : vocoder_effect Z) (E : ℚ) : Option (vocoder_effect Z) :=
  let s1 := envelope_update s E
  match gate_of s1 E with
  | none => none
  | some g => some { s1 with mix_smth := mix_update s1.mix_smth g }

/-- The mix after a sequence of targets, oldest first. -/
def mix_run (mix : ℚ) (targets : List ℚ) : ℚ :=
  targets.foldl mix_update mix

/-- The maximum tracker after `n` frames of the same energy `E`, started at `e`. -/
def e_max_after (e E : ℚ) : Nat → ℚ
  | 0 => e
  | n + 1 => e_max_update (e_max_after e E n) E

/-- The minimum tracker after `n` frames of the same energy `E`, started at `e`. -/
def e_min_after (e E : ℚ) : Nat → ℚ
  | 0 => e
  | n + 1 => e_min_update (e_min_after e E n) E

/-- Signed 16-bit range of a sample. -/
def is_int16 (x : Int) : Prop := -32768 ≤ x ∧ x ≤ 32767

/-! ## Values the specification gives for the constants -/

/-- Section 4.3: `up_max = 0.1`. -/
def spec_up_max : ℚ := 1 / 10

/-- Section 4.3: `down_max = 0.005`. -/
def spec_down_max : ℚ := 5 / 1000

/-- Section 4.3: `up_min = 0.002`. -/
def spec_up_min : ℚ := 2 / 1000

/-- Section 4.3: `down_min = 0.2`. -/
def spec_down_min : ℚ := 2 / 10

/-- Section 4.3: `E_MIN = 20.0`. -/
def spec_E_MIN : ℚ := 20

/-- Section 4.5: the attack coefficient of the mix is 0.5. -/
def spec_MIX_SMTH_UP : ℚ := 1 / 2

/-- Section 4.5: the decay coefficient of the mix is 0.25. -/
def spec_MIX_SMTH_DOWN : ℚ := 1 / 4

/-- Sections 3 and 4.4: the synthesis filter has 16 taps. -/
def spec_lpc_order : Nat := 16

/-- Section 4.1: the internal processing rate is 16 kHz. -/
def spec_proc_fs_khz : Nat := 16

/-- Section 3: the long window is 20 ms. -/
def spec_long_window_ms : Nat := 20

/-- Section 3: the short trailing window is 10 ms. -/
def spec_short_window_ms : Nat := 10

end Vocoder

/-! # Audio layer: frame sizes of `src/audio_io/ios/audio_io_ios.h` -/

namespace AudioDevice

/-- Frame length in milliseconds (`#define FRAME_LEN_MS 10`). -/
def FRAME_LEN_MS : Nat := 10

/-- Sample rate in kHz (`#define FS_KHZ 16`). -/
def FS_KHZ : Nat := 16

/-- Frame length in samples (`#define FRAME_LEN (FRAME_LEN_MS*FS_KHZ)`). -/
def FRAME_LEN : Nat := FRAME_LEN_MS * FS_KHZ

/-- Recording rate in Hz (`#define FS_REC_HZ 16000`). -/
def FS_REC_HZ : Nat := 16000

/-- Playout rate in Hz (`#define FS_PLAY_HZ 16000`). -/
def FS_PLAY_HZ : Nat := 16000

/-- Recording buffer size (`#define REC_BUF_SIZE_IN_SAMPLES (FS_REC_HZ / 100)`). -/
def REC_BUF_SIZE_IN_SAMPLES : Nat := FS_REC_HZ / 100

/-- Playout buffer size (`#define PLAY_BUF_SIZE_IN_SAMPLES (FS_PLAY_HZ / 100)`). -/
def PLAY_BUF_SIZE_IN_SAMPLES : Nat := FS_PLAY_HZ / 100

end AudioDevice

/-! # Stress test: RTP helper and transport callback of `start_stop_stress_test.cpp`

Bytes and the unsigned fields are natural numbers; every conversion to a fixed width is an
explicit remainder.  A buffer is a list of bytes whose length is the size of the array; an
access outside the buffer has no result. -/

namespace StressTest

/-- Size of the RTP header (`#define RTP_HEADER_IN_BYTES 12`). -/
def RTP_HEADER_IN_BYTES : Nat := 12

/-- Largest payload plus one (`#define MAX_PACKET_SIZE_BYTES 1000`). -/
def MAX_PACKET_SIZE_BYTES : Nat := 1000

/-- The expression `(uint8_t) ((x >> shift) & 0xFF)` of `MakeRTPheader`. -/
def header_byte (x shift : Nat) : Nat :=
  ((x >>> shift) &&& 0xFF) % 2 ^ 8

/-- The function `MakeRTPheader`: the arguments are converted to their parameter types
(8, 16, 32 and 32 bits), the twelve bytes are stored one after the other, and the result is
the buffer with `RTP_HEADER_IN_BYTES`.  There is no result when the buffer is shorter than
the twelve bytes stored. -/
def MakeRTPheader (rtpHeader : List Nat) (payloadType seqNum timeStamp ssrc : Nat) :
    Option (List Nat × Nat) :=
  let payloadType := payloadType % 2 ^ 8
  let seqNum := seqNum % 2 ^ 16
  let timeStamp := timeStamp % 2 ^ 32
  let ssrc := ssrc % 2 ^ 32
  if rtpHeader.length < 12 then none
  else
    let h := rtpHeader.set 0 (0x80 % 2 ^ 8)
    let h := h.set 1 (header_byte payloadType 0)
    let h := h.set 2 (header_byte seqNum 8)
    let h := h.set 3 (header_byte seqNum 0)
    let h := h.set 4 (header_byte timeStamp 24)
    let h := h.set 5 (header_byte timeStamp 16)
    let h := h.set 6 (header_byte timeStamp 8)
    let h := h.set 7 (header_byte timeStamp 0)
    let h := h.set 8 (header_byte ssrc 24)
    let h := h.set 9 (header_byte ssrc 16)
    let h := h.set 10 (header_byte ssrc 8)
    let h := h.set 11 (header_byte ssrc 0)
    some (h, RTP_HEADER_IN_BYTES)

/-- Big-endian value of two bytes. -/
def be16 (b0 b1 : Nat) : Nat := b0 * 256 + b1

/-- Big-endian value of four bytes. -/
def be32 (b0 b1 b2 b3 : Nat) : Nat := ((b0 * 256 + b1) * 256 + b2) * 256 + b3

/-- The twelve values that `MakeRTPheader` stores, in the order of the indices 0 to 11. -/
def header_bytes (payloadType seqNum timeStamp ssrc : Nat) : List Nat :=
  [0x80 % 2 ^ 8, header_byte payloadType 0, header_byte seqNum 8, header_byte seqNum 0,
    header_byte timeStamp 24, header_byte timeStamp 16, header_byte timeStamp 8,
    header_byte timeStamp 0, header_byte ssrc 24, header_byte ssrc 16, header_byte ssrc 8,
    header_byte ssrc 0]

/-- The byte of a buffer at an index, 0 outside the buffer. -/
def byte_at (buf : List Nat) (i : Nat) : Nat := buf.getD i 0

/-- The library function `memcpy(&dst[off], src, n)` with `n` the length of `src`: the bytes
of `src` replace the bytes `off .. off + n` of `dst`.  There is no result when the copy
does not fit into `dst`. -/
def memcpy (dst : List Nat) (off : Nat) (src : List Nat) : Option (List Nat) :=
  if off + src.length ≤ dst.length then
    some (dst.take off ++ src ++ dst.drop (off + src.length))
  else none

/-- The conversion `(int)` of a 32-bit unsigned value. -/
def to_int32 (x : Nat) : Int :=
  if x % 2 ^ 32 < 2 ^ 31 then ((x % 2 ^ 32 : Nat) : Int) else ((x % 2 ^ 32 : Nat) : Int) - 2 ^ 32

/-- One record of the RTP stream file, as the three `fwrite` calls of `SendData` store it:
the time in ms, the packet length and that many bytes of the packet. -/
structure FileRecord where
  ms : Int
  packetLenBytes : Nat
  bytes : List Nat

/-- The data members of `class TransportCallBack`; `fp_` is the content of the file written
so far and the start time is left out. -/
structure TransportCallBack where
  ssrc_ : Nat
  seqNo_ : Nat
  totBytes_ : Nat
  timestamps_per_packet_ : Nat
  prev_timestamp_ : Nat
  timestamp_offset_ : Nat
  packet_ : List Nat
  packetLenBytes_ : Nat
  fp_ : List FileRecord

/-- The constructor `TransportCallBack(std::string name)`.  The value of `rand()` and the
bytes that the array `packet_` holds before the first store are given from outside. -/
def TransportCallBack_ctor (rand : Nat)
    (uninit : Fin (RTP_HEADER_IN_BYTES + MAX_PACKET_SIZE_BYTES) → Nat) : TransportCallBack :=
  { ssrc_ := 0
    seqNo_ := 0
    totBytes_ := 0
    timestamps_per_packet_ := 0
    prev_timestamp_ := 0
    timestamp_offset_ := rand % 2 ^ 32
    packet_ := List.ofFn uninit
    packetLenBytes_ := 0
    fp_ := [] }

/-- The method `TransportCallBack::SendData`.  `payload_data` is the payload and its length
is `payload_len_bytes`; `ms` is the elapsed time that the method reads from the clock; the
frame type and the fragmentation header are not used by the method and are left out.  The
result is the new object with the returned `(int)packetLenBytes_`. -/
def SendData (t : TransportCallBack) (payload_type timestamp : Nat) (payload_data : List Nat)
    (ms : Int) : Option (TransportCallBack × Int) :=
  let timestamp := (timestamp % 2 ^ 32 + t.timestamp_offset_) % 2 ^ 32
  match MakeRTPheader t.packet_ payload_type t.seqNo_ timestamp t.ssrc_ with
  | none => none
  | some (packet1, headerLenBytes) =>
    let seqNo := (t.seqNo_ + 1) % 2 ^ 32
    let payload_len_bytes := payload_data.length
    let copied : Option (List Nat × Nat) :=
      if payload_len_bytes < MAX_PACKET_SIZE_BYTES then
        match memcpy packet1 headerLenBytes payload_data with
        | none => none
        | some packet2 =>
          some (packet2, (payload_len_bytes % 2 ^ 32 + headerLenBytes % 2 ^ 32) % 2 ^ 32)
      else some (packet1, 0)
    match copied with
    | none => none
    | some (packet2, packetLenBytes) =>
      let timestamps_per_packet :=
        if t.prev_timestamp_ ≠ 0 ∧ t.timestamps_per_packet_ = 0 then
          ((timestamp + 2 ^ 32 - t.prev_timestamp_) % 2 ^ 32) % 2 ^ 16
        else t.timestamps_per_packet_
      some ({ ssrc_ := t.ssrc_
              seqNo_ := seqNo
              totBytes_ := (t.totBytes_ + payload_len_bytes) % 2 ^ 32
              timestamps_per_packet_ := timestamps_per_packet
              prev_timestamp_ := timestamp
              timestamp_offset_ := t.timestamp_offset_
              packet_ := packet2
              packetLenBytes_ := packetLenBytes
              fp_ := t.fp_ ++ [{ ms := ms, packetLenBytes := packetLenBytes,
                                 bytes := packet2.take packetLenBytes }] },
            to_int32 packetLenBytes)

/-- The arguments of one call of `SendData`. -/
structure SendCall where
  payload_type : Nat
  timestamp : Nat
  payload_data : List Nat
  ms : Int

/-- The object after a sequence of calls of `SendData`, oldest first. -/
def SendData_run (t : TransportCallBack) : List SendCall → Option TransportCallBack
  | [] => some t
  | c :: cs =>
    match SendData t c.payload_type c.timestamp c.payload_data c.ms with
    | none => none
    | some (t1, _) => SendData_run t1 cs

/-- Size of the array `uint8_t RTPpacketBuf[MAX_PACKET_SIZE_BYTES]` of `main_function`. -/
def RTPpacketBuf_size : Nat := MAX_PACKET_SIZE_BYTES

/-- The read of one record in the playback loop of `main_function`:
`fread(&bytesIn, ...)` followed by `fread(RTPpacketBuf, sizeof(uint8_t), bytesIn, fp)`.
The result is the buffer with `bytesIn`; there is no result when the bytes of the record do
not fit into the buffer. -/
def read_record (RTPpacketBuf : List Nat) (r : FileRecord) : Option (List Nat × Nat) :=
  match memcpy RTPpacketBuf 0 r.bytes with
  | none => none
  | some buf => some (buf, r.packetLenBytes)

end StressTest

namespace Vocoder

/-! ## Basic facts about the scalar updates -/

theorem e_max_update_of_lt {e E : ℚ} (h : e < E) :
    e_max_update e E = e + (1 / 10) * (E - e) := by
  unfold e_max_update E_MAX_TRACK_SMTH_UP
  rw [if_pos h]
  norm_num

theorem e_max_after_of_lt {E0 E1 : ℚ} (h : E0 < E1) (n : Nat) :
    e_max_after E0 E1 n = E1 - (E1 - E0) * (9 / 10) ^ n := by
  induction n with
  | zero => simp [e_max_after]
  | succ k ih =>
    have hpos : 0 < (E1 - E0) * (9 / 10 : ℚ) ^ k :=
      mul_pos (sub_pos.mpr h) (pow_pos (by norm_num) k)
    rw [e_max_after, ih, e_max_update_of_lt (by linarith), pow_succ]
    ring

theorem mix_update_of_lt {mix target : ℚ} (h : mix < target) :
    mix_update mix target = mix + (1 / 2) * (target - mix) := by
  unfold mix_update MIX_SMTH_UP
  rw [if_pos h]
  norm_num

theorem mix_update_of_le {mix target : ℚ} (h : target ≤ mix) :
    mix_update mix target = mix + (1 / 4) * (target - mix) := by
  unfold mix_update MIX_SMTH_DOWN
  rw [if_neg (not_lt.mpr h)]
  norm_num

theorem mix_update_mem_unit {mix target : ℚ} (hm : 0 ≤ mix ∧ mix ≤ 1)
    (ht : 0 ≤ target ∧ target ≤ 1) :
    0 ≤ mix_update mix target ∧ mix_update mix target ≤ 1 := by
  rcases lt_or_le mix target with h | h
  · rw [mix_update_of_lt h]
    constructor <;> linarith [hm.1, hm.2, ht.1, ht.2]
  · rw [mix_update_of_le h]
    constructor <;> linarith [hm.1, hm.2, ht.1, ht.2]

theorem mix_run_mem_unit (targets : List ℚ) :
    ∀ mix : ℚ, (0 ≤ mix ∧ mix ≤ 1) → (∀ t ∈ targets, 0 ≤ t ∧ t ≤ 1) →
      0 ≤ mix_run mix targets ∧ mix_run mix targets ≤ 1 := by
  induction targets with
  | nil => intro mix hm _; simpa [mix_run] using hm
  | cons t ts ih =>
    intro mix hm ht
    have h1 := mix_update_mem_unit hm (ht t (List.mem_cons_self t ts))
    have h2 := ih (mix_update mix t) h1 (fun u hu => ht u (List.mem_cons_of_mem t hu))
    simpa [mix_run] using h2

theorem e_min_smooth_of_le {e E : ℚ} (h : E ≤ e) :
    e_min_smooth e E = e + (1 / 5) * (E - e) := by
  unfold e_min_smooth E_MIN_TRACK_SMTH_DOWN
  rw [if_neg (not_lt.mpr h)]
  norm_num

theorem E_MIN_le_e_min_update (e E : ℚ) : E_MIN ≤ e_min_update e E :=
  le_max_right _ _

theorem E_MIN_eq : E_MIN = 20 := by
  unfold E_MIN; norm_num

theorem clamp_unit_bounds (x : ℚ) : 0 ≤ clamp x 0 1 ∧ clamp x 0 1 ≤ 1 := by
  unfold clamp
  split_ifs with h1 h2
  · exact ⟨le_refl 0, zero_le_one⟩
  · exact ⟨zero_le_one, le_refl 1⟩
  · exact ⟨not_lt.mp h1, not_lt.mp h2⟩

theorem e_min_after_of_floor_le {e E : ℚ} (hE : E_MIN ≤ E) (h : E ≤ e) (n : Nat) :
    e_min_after e E n = E + (4 / 5) ^ n * (e - E) := by
  induction n with
  | zero => simp [e_min_after]
  | succ k ih =>
    have hk : 0 ≤ (4 / 5 : ℚ) ^ k * (e - E) :=
      mul_nonneg (pow_nonneg (by norm_num) k) (sub_nonneg.mpr h)
    have hle : E ≤ E + (4 / 5 : ℚ) ^ k * (e - E) := by linarith
    rw [e_min_after, ih, e_min_update, e_min_smooth_of_le hle, pow_succ,
      max_eq_left (by linarith)]
    ring

/-- C2: maximum tracker under a step increase.  For every start value `E0` of `e_max_track`
and every constant frame energy `E1 > E0`, each update adds `E_MAX_TRACK_SMTH_UP` times the
gap, so the gap `E1 - e_max_track` is multiplied by exactly 9/10; after `n` frames
`e_max_track = E1 - (E1 - E0) * (9/10)^n`; the sequence is strictly increasing and never
exceeds `E1`. -/
theorem e_max_step_convergence (E0 E1 : ℚ) (h : E0 < E1) (n : Nat) :
    e_max_after E0 E1 (n + 1)
        = e_max_after E0 E1 n + E_MAX_TRACK_SMTH_UP * (E1 - e_max_after E0 E1 n)
      ∧ E1 - e_max_after E0 E1 (n + 1) = (9 / 10) * (E1 - e_max_after E0 E1 n)
      ∧ e_max_after E0 E1 n = E1 - (E1 - E0) * (9 / 10) ^ n
      ∧ e_max_after E0 E1 n < e_max_after E0 E1 (n + 1)
      ∧ e_max_after E0 E1 n ≤ E1 := by
  have hn := e_max_after_of_lt h n
  have hs := e_max_after_of_lt h (n + 1)
  have hpos : 0 < (E1 - E0) * (9 / 10 : ℚ) ^ n :=
    mul_pos (sub_pos.mpr h) (pow_pos (by norm_num) n)
  rw [pow_succ] at hs
  refine ⟨?_, ?_, hn, ?_, ?_⟩
  · rw [hs, hn]; unfold E_MAX_TRACK_SMTH_UP; norm_num; ring
  · rw [hs, hn]; ring
  · rw [hs, hn]; linarith
  · rw [hn]; linarith

/-- Witness for C2: the step from 0 to 10, at the third frame. -/
theorem e_max_step_convergence_witness :
    (0 : ℚ) < 10
      ∧ (e_max_after 0 10 (2 + 1)
            = e_max_after 0 10 2 + E_MAX_TRACK_SMTH_UP * (10 - e_max_after 0 10 2)
          ∧ 10 - e_max_after 0 10 (2 + 1) = (9 / 10) * (10 - e_max_after 0 10 2)
          ∧ e_max_after 0 10 2 = 10 - (10 - 0) * (9 / 10) ^ 2
          ∧ e_max_after 0 10 2 < e_max_after 0 10 (2 + 1)
          ∧ e_max_after 0 10 2 ≤ 10) :=
  ⟨by norm_num, e_max_step_convergence 0 10 (by norm_num) 2⟩

/-- C3: mix rate limiting.  For every mix and target in [0,1], one MixController update
changes the mix by exactly `MIX_SMTH_UP` (1/2) times the gap when `target > mix` and by
exactly `MIX_SMTH_DOWN` (1/4) times the gap otherwise; the change is at most half the gap in
absolute value, the new value lies between the old value and the target, and it does not
cross the target. -/
theorem mix_rate_limiting (mix target : ℚ) (hm : 0 ≤ mix ∧ mix ≤ 1)
    (ht : 0 ≤ target ∧ target ≤ 1) :
    (target > mix → mix_update mix target - mix = MIX_SMTH_UP * (target - mix))
      ∧ (¬ target > mix → mix_update mix target - mix = MIX_SMTH_DOWN * (target - mix))
      ∧ MIX_SMTH_UP = 1 / 2 ∧ MIX_SMTH_DOWN = 1 / 4
      ∧ |mix_update mix target - mix| ≤ (1 / 2) * |target - mix|
      ∧ min mix target ≤ mix_update mix target
      ∧ mix_update mix target ≤ max mix target
      ∧ (mix ≤ target → mix_update mix target ≤ target)
      ∧ (target ≤ mix → target ≤ mix_update mix target) := by
  have _hm := hm
  have _ht := ht
  have hup : MIX_SMTH_UP = 1 / 2 := by unfold MIX_SMTH_UP; norm_num
  have hdown : MIX_SMTH_DOWN = 1 / 4 := by unfold MIX_SMTH_DOWN; norm_num
  rcases lt_or_le mix target with h | h
  · have e := mix_update_of_lt h
    refine ⟨fun _ => by rw [e, hup]; ring, fun hn => absurd h hn, hup, hdown, ?_, ?_, ?_,
      fun _ => by rw [e]; linarith, fun h2 => absurd h (not_lt.mpr h2)⟩
    · rw [e, abs_of_pos (sub_pos.mpr h)]
      have : mix + 1 / 2 * (target - mix) - mix = 1 / 2 * (target - mix) := by ring
      rw [this, abs_of_pos (by linarith)]
    · rw [e, min_eq_left h.le]; linarith
    · rw [e, max_eq_right h.le]; linarith
  · have e := mix_update_of_le h
    refine ⟨fun hn => absurd hn (not_lt.mpr h), fun _ => by rw [e, hdown]; ring, hup, hdown,
      ?_, ?_, ?_, fun h2 => by rw [e]; linarith, fun _ => by rw [e]; linarith⟩
    · have : mix + 1 / 4 * (target - mix) - mix = 1 / 4 * (target - mix) := by ring
      rw [e, this, abs_of_nonpos (by linarith), abs_of_nonpos (by linarith)]
      linarith
    · rw [e, min_eq_right h]; linarith
    · rw [e, max_eq_left h]; linarith

/-- Witness for C3: the mix 1/4 and the target 1. -/
theorem mix_rate_limiting_witness :
    ((0 : ℚ) ≤ 1 / 4 ∧ (1 / 4 : ℚ) ≤ 1) ∧ ((0 : ℚ) ≤ 1 ∧ (1 : ℚ) ≤ 1)
      ∧ mix_update (1 / 4) 1 - 1 / 4 = MIX_SMTH_UP * (1 - 1 / 4) :=
  ⟨by norm_num, by norm_num,
    (mix_rate_limiting (1 / 4) 1 (by norm_num) (by norm_num)).1 (by norm_num)⟩

/-- C4: invariant of the mix state.  `mix_smth` is 0 after initialisation and after a
reset; one MixController update with a target in [0,1] maps a mix in [0,1] to a mix in
[0,1]; a frame whose gate has a value keeps `mix_smth` in [0,1]; hence after any sequence
of updates with targets in [0,1], started from the initial state, `mix_smth` is in
[0,1]. -/
theorem mix_smth_unit_interval (Z : Nat) (fs_khz : Int) (rin rout : Nat) :
    (vocoder_init Z fs_khz rin rout).mix_smth = 0
      ∧ (∀ s : vocoder_effect Z, (vocoder_reset s).mix_smth = 0)
      ∧ (∀ (s s1 : vocoder_effect Z) (E : ℚ), 0 ≤ s.mix_smth ∧ s.mix_smth ≤ 1 →
          track_frame s E = some s1 → 0 ≤ s1.mix_smth ∧ s1.mix_smth ≤ 1)
      ∧ (∀ mix target : ℚ, 0 ≤ mix ∧ mix ≤ 1 → 0 ≤ target ∧ target ≤ 1 →
          0 ≤ mix_update mix target ∧ mix_update mix target ≤ 1)
      ∧ (∀ targets : List ℚ, (∀ t ∈ targets, 0 ≤ t ∧ t ≤ 1) →
          0 ≤ mix_run (vocoder_init Z fs_khz rin rout).mix_smth targets
            ∧ mix_run (vocoder_init Z fs_khz rin rout).mix_smth targets ≤ 1) := by
  refine ⟨rfl, fun _ => rfl, fun s s1 E hs h => ?_,
    fun mix target hm ht => mix_update_mem_unit hm ht, fun targets ht => ?_⟩
  · unfold track_frame at h
    cases hg : gate_of (envelope_update s E) E with
    | none => simp [hg] at h
    | some g =>
      simp only [hg, Option.some.injEq] at h
      have hb : 0 ≤ g ∧ g ≤ 1 := by
        unfold gate_of gate at hg
        split_ifs at hg
        rw [Option.some.injEq] at hg
        rw [← hg]
        exact clamp_unit_bounds _
      rw [← h]
      exact mix_update_mem_unit hs hb
  · exact mix_run_mem_unit targets _ ⟨le_of_eq rfl, by simp [vocoder_init]⟩ ht

/-- Witness for C4: the targets 1, 0, 1/2 from the initial state at 16 kHz. -/
theorem mix_smth_unit_interval_witness :
    0 ≤ mix_run (vocoder_init 48 16 0 0).mix_smth [1, 0, 1 / 2]
      ∧ mix_run (vocoder_init 48 16 0 0).mix_smth [1, 0, 1 / 2] ≤ 1 :=
  (mix_smth_unit_interval 48 16 0 0).2.2.2.2 [1, 0, 1 / 2] (by
    intro t ht
    simp only [List.mem_cons, List.mem_singleton, List.not_mem_nil, or_false] at ht
    rcases ht with rfl | rfl | rfl <;> norm_num)

/-- C6: energy floor.  After every EnvelopeTracker update, for every frame energy and every
prior state, `e_min_track ≥ E_MIN`, and `E_MIN` is 20. -/
theorem e_min_floor_invariant (Z : Nat) (s : vocoder_effect Z) (E : ℚ) :
    E_MIN ≤ (envelope_update s E).e_min_track
      ∧ E_MIN ≤ e_min_update s.e_min_track E
      ∧ E_MIN = 20 :=
  ⟨E_MIN_le_e_min_update _ _, E_MIN_le_e_min_update _ _, E_MIN_eq⟩

/-- C7 fails as stated: with `e_min_track = 20` and frame energy 10 (not above it) the
one-pole value is 20 + 0.2 * (10 - 20) = 18, but the update returns 20 because of the floor;
so the new `e_min_track` is not `e_min_track + 0.2 * (E - e_min_track)` for every state and
every energy not above `e_min_track`. -/
theorem e_min_plain_recurrence_fails :
    (10 : ℚ) ≤ 20
      ∧ (20 : ℚ) + E_MIN_TRACK_SMTH_DOWN * (10 - 20) = 18
      ∧ e_min_update 20 10 = 20
      ∧ ¬ (∀ e E : ℚ, E ≤ e → e_min_update e E = e + E_MIN_TRACK_SMTH_DOWN * (E - e)) := by
  have h1 : e_min_update 20 10 = 20 := by
    norm_num [e_min_update, e_min_smooth, E_MIN, E_MIN_TRACK_SMTH_DOWN]
  refine ⟨by norm_num, by norm_num [E_MIN_TRACK_SMTH_DOWN], h1, ?_⟩
  intro h
  have h2 := h 20 10 (by norm_num)
  rw [h1] at h2
  norm_num [E_MIN_TRACK_SMTH_DOWN] at h2

/-- C7, amended: for every state and every frame energy `E` not above `e_min_track`, the
new `e_min_track` is the larger of `e_min_track + 0.2 * (E - e_min_track)` and `E_MIN`; it
equals `e_min_track + 0.2 * (E - e_min_track)` whenever that value is at least `E_MIN`, in
particular whenever `E ≥ E_MIN`; and under a constant energy `E` with
`E_MIN ≤ E ≤ e_min_track` the gap to `E` shrinks by the factor 4/5 per frame. -/
theorem e_min_step_convergence (e E : ℚ) (h : E ≤ e) :
    e_min_update e E = max (e + E_MIN_TRACK_SMTH_DOWN * (E - e)) E_MIN
      ∧ (E_MIN ≤ e + E_MIN_TRACK_SMTH_DOWN * (E - e) →
          e_min_update e E = e + E_MIN_TRACK_SMTH_DOWN * (E - e))
      ∧ (E_MIN ≤ E → e_min_update e E = e + E_MIN_TRACK_SMTH_DOWN * (E - e))
      ∧ E_MIN_TRACK_SMTH_DOWN = 2 / 10
      ∧ (E_MIN ≤ E → ∀ n : Nat,
          e_min_after e E (n + 1) - E = (4 / 5) * (e_min_after e E n - E)
            ∧ e_min_after e E n - E = (4 / 5) ^ n * (e - E)) := by
  have hd : E_MIN_TRACK_SMTH_DOWN = 2 / 10 := by unfold E_MIN_TRACK_SMTH_DOWN; norm_num
  have hs : e_min_smooth e E = e + E_MIN_TRACK_SMTH_DOWN * (E - e) := by
    rw [e_min_smooth_of_le h, hd]; norm_num
  have hu : e_min_update e E = max (e + E_MIN_TRACK_SMTH_DOWN * (E - e)) E_MIN := by
    rw [e_min_update, hs]
  refine ⟨hu, fun hf => by rw [hu, max_eq_left hf], fun hE => ?_, hd, fun hE n => ?_⟩
  · rw [hu, max_eq_left]
    rw [hd]; linarith
  · rw [e_min_after_of_floor_le hE h n, e_min_after_of_floor_le hE h (n + 1), pow_succ]
    constructor <;> ring

/-- Witness for the amended C7: `e_min_track = 100` and frame energy 50. -/
theorem e_min_step_convergence_witness :
    (50 : ℚ) ≤ 100 ∧ e_min_update 100 50 = max (100 + E_MIN_TRACK_SMTH_DOWN * (50 - 100)) E_MIN :=
  ⟨by norm_num, (e_min_step_convergence 100 50 (by norm_num)).1⟩

/-- C8: dry/wet mixing is a convex combination.  For every mix in [0,1] and all 16-bit
samples `wet` and `dry`, the output `mix * wet + (1 - mix) * dry` lies between
`min(wet, dry)` and `max(wet, dry)`, hence inside the signed 16-bit range, equals `dry`
when the mix is 0 and equals `wet` when the mix is 1. -/
theorem mix_output_convex (mix : ℚ) (wet dry : Int) (hm : 0 ≤ mix ∧ mix ≤ 1)
    (hw : is_int16 wet) (hd : is_int16 dry) :
    ((min wet dry : Int) : ℚ) ≤ mix_output mix wet dry
      ∧ mix_output mix wet dry ≤ ((max wet dry : Int) : ℚ)
      ∧ (-32768 : ℚ) ≤ mix_output mix wet dry
      ∧ mix_output mix wet dry ≤ 32767
      ∧ mix_output 0 wet dry = (dry : ℚ)
      ∧ mix_output 1 wet dry = (wet : ℚ) := by
  obtain ⟨hm0, hm1⟩ := hm
  have h1m : 0 ≤ 1 - mix := by linarith
  have hlo : ((min wet dry : Int) : ℚ) ≤ mix_output mix wet dry := by
    have a : ((min wet dry : Int) : ℚ) ≤ (wet : ℚ) := by exact_mod_cast min_le_left wet dry
    have b : ((min wet dry : Int) : ℚ) ≤ (dry : ℚ) := by exact_mod_cast min_le_right wet dry
    unfold mix_output
    nlinarith [mul_le_mul_of_nonneg_left a hm0, mul_le_mul_of_nonneg_left b h1m]
  have hhi : mix_output mix wet dry ≤ ((max wet dry : Int) : ℚ) := by
    have a : (wet : ℚ) ≤ ((max wet dry : Int) : ℚ) := by exact_mod_cast le_max_left wet dry
    have b : (dry : ℚ) ≤ ((max wet dry : Int) : ℚ) := by exact_mod_cast le_max_right wet dry
    unfold mix_output
    nlinarith [mul_le_mul_of_nonneg_left a hm0, mul_le_mul_of_nonneg_left b h1m]
  have hmin : (-32768 : ℚ) ≤ ((min wet dry : Int) : ℚ) := by
    have : (-32768 : Int) ≤ min wet dry := le_min hw.1 hd.1
    exact_mod_cast this
  have hmax : ((max wet dry : Int) : ℚ) ≤ 32767 := by
    have : max wet dry ≤ (32767 : Int) := max_le hw.2 hd.2
    exact_mod_cast this
  refine ⟨hlo, hhi, le_trans hmin hlo, le_trans hhi hmax, ?_, ?_⟩
  · unfold mix_output; ring
  · unfold mix_output; ring

/-- Witness for C8: the mix 1/4 of the samples 32767 and -32768. -/
theorem mix_output_convex_witness :
    ((0 : ℚ) ≤ 1 / 4 ∧ (1 / 4 : ℚ) ≤ 1) ∧ is_int16 32767 ∧ is_int16 (-32768)
      ∧ (-32768 : ℚ) ≤ mix_output (1 / 4) 32767 (-32768)
      ∧ mix_output (1 / 4) 32767 (-32768) ≤ 32767 :=
  ⟨by norm_num, by unfold is_int16; decide, by unfold is_int16; decide,
    (mix_output_convex (1 / 4) 32767 (-32768) (by norm_num) (by unfold is_int16; decide)
      (by unfold is_int16; decide)).2.2.1,
    (mix_output_convex (1 / 4) 32767 (-32768) (by norm_num) (by unfold is_int16; decide)
      (by unfold is_int16; decide)).2.2.2.1⟩

/-- C9: capacity of the residual estimator.  For every sample rate `fs_khz` with
`0 ≤ fs_khz ≤ Z_MAX_FS_KHZ`, the active lengths `fs_khz * WIN_L1`, `fs_khz * WIN_L3` and
`fs_khz * Z_REST_BUF_SZ_MS` do not exceed the capacities of `win1`, `win3` and `buf`, with
equality exactly at `fs_khz = Z_MAX_FS_KHZ`; the window lengths are 20, 10 and 20 ms; the
history buffer has the capacity of `win1` and twice that of `win3`. -/
theorem residual_estimator_capacity (Z_MAX_FS_KHZ : Nat) (fs_khz : Int) (h0 : 0 ≤ fs_khz)
    (h1 : fs_khz ≤ (Z_MAX_FS_KHZ : Int)) :
    fs_khz * (WIN_L1 : Int) ≤ (win1_capacity Z_MAX_FS_KHZ : Int)
      ∧ fs_khz * (WIN_L3 : Int) ≤ (win3_capacity Z_MAX_FS_KHZ : Int)
      ∧ fs_khz * (Z_REST_BUF_SZ_MS : Int) ≤ (buf_capacity Z_MAX_FS_KHZ : Int)
      ∧ (fs_khz * (WIN_L1 : Int) = (win1_capacity Z_MAX_FS_KHZ : Int)
          ↔ fs_khz = (Z_MAX_FS_KHZ : Int))
      ∧ (fs_khz * (WIN_L3 : Int) = (win3_capacity Z_MAX_FS_KHZ : Int)
          ↔ fs_khz = (Z_MAX_FS_KHZ : Int))
      ∧ (fs_khz * (Z_REST_BUF_SZ_MS : Int) = (buf_capacity Z_MAX_FS_KHZ : Int)
          ↔ fs_khz = (Z_MAX_FS_KHZ : Int))
      ∧ WIN_L1 = 20 ∧ WIN_L3 = 10 ∧ Z_REST_BUF_SZ_MS = 20
      ∧ buf_capacity Z_MAX_FS_KHZ = win1_capacity Z_MAX_FS_KHZ
      ∧ buf_capacity Z_MAX_FS_KHZ = 2 * win3_capacity Z_MAX_FS_KHZ := by
  have _h0 := h0
  simp only [win1_capacity, win3_capacity, buf_capacity, WIN_L1, WIN_L3, Z_REST_BUF_SZ_MS]
  push_cast
  refine ⟨by omega, by omega, by omega, ⟨fun h => by omega, fun h => by omega⟩,
    ⟨fun h => by omega, fun h => by omega⟩, ⟨fun h => by omega, fun h => by omega⟩,
    trivial, trivial, trivial, trivial, by omega⟩

/-- Witness for C9: the rate 16 kHz under a maximum of 48 kHz. -/
theorem residual_estimator_capacity_witness :
    (0 : Int) ≤ 16 ∧ (16 : Int) ≤ ((48 : Nat) : Int)
      ∧ (16 : Int) * (WIN_L1 : Int) ≤ (win1_capacity 48 : Int) :=
  ⟨by decide, by decide, (residual_estimator_capacity 48 16 (by decide) (by decide)).1⟩

/-- C10: the tuning constants of the header equal the values the specification gives:
`up_max` 0.1, `down_max` 0.005, `up_min` 0.002, `down_min` 0.2, `E_MIN` 20.0,
`MIX_SMTH_UP` 0.5, `MIX_SMTH_DOWN` 0.25, filter order 16, internal rate 16 kHz, long window
20 ms and short trailing window 10 ms. -/
theorem header_constants_match_spec :
    E_MAX_TRACK_SMTH_UP = spec_up_max
      ∧ E_MAX_TRACK_SMTH_DOWN = spec_down_max
      ∧ E_MIN_TRACK_SMTH_UP = spec_up_min
      ∧ E_MIN_TRACK_SMTH_DOWN = spec_down_min
      ∧ E_MIN = spec_E_MIN
      ∧ MIX_SMTH_UP = spec_MIX_SMTH_UP
      ∧ MIX_SMTH_DOWN = spec_MIX_SMTH_DOWN
      ∧ Z_REST_LPC_ORDER = spec_lpc_order
      ∧ PROC_FS_KHZ = spec_proc_fs_khz
      ∧ WIN_L1 = spec_long_window_ms
      ∧ WIN_L3 = spec_short_window_ms := by
  refine ⟨?_, ?_, ?_, ?_, ?_, ?_, ?_, rfl, rfl, rfl, rfl⟩
  · norm_num [E_MAX_TRACK_SMTH_UP, spec_up_max]
  · norm_num [E_MAX_TRACK_SMTH_DOWN, spec_down_max]
  · norm_num [E_MIN_TRACK_SMTH_UP, spec_up_min]
  · norm_num [E_MIN_TRACK_SMTH_DOWN, spec_down_min]
  · norm_num [E_MIN, spec_E_MIN]
  · norm_num [MIX_SMTH_UP, spec_MIX_SMTH_UP]
  · norm_num [MIX_SMTH_DOWN, spec_MIX_SMTH_DOWN]

/-- C12: frame size.  A 10 ms frame at the internal rate `PROC_FS_KHZ` = 16 has 160
samples, which is `FRAME_LEN`, `REC_BUF_SIZE_IN_SAMPLES` and `PLAY_BUF_SIZE_IN_SAMPLES` of
the audio layer; for every `Z_MAX_FS_KHZ ≥ PROC_FS_KHZ` such a frame fits the capacity of
`win3` (`Z_MAX_FS_KHZ * 10`) and two such frames fit the history buffer
(`Z_MAX_FS_KHZ * 20`). -/
theorem frame_size_consistency (Z_MAX_FS_KHZ : Nat) (h : PROC_FS_KHZ ≤ Z_MAX_FS_KHZ) :
    PROC_FS_KHZ = 16
      ∧ AudioDevice.FRAME_LEN_MS * PROC_FS_KHZ = 160
      ∧ AudioDevice.FRAME_LEN = 160
      ∧ AudioDevice.REC_BUF_SIZE_IN_SAMPLES = 160
      ∧ AudioDevice.PLAY_BUF_SIZE_IN_SAMPLES = 160
      ∧ win3_capacity Z_MAX_FS_KHZ = Z_MAX_FS_KHZ * 10
      ∧ buf_capacity Z_MAX_FS_KHZ = Z_MAX_FS_KHZ * 20
      ∧ AudioDevice.FRAME_LEN_MS * PROC_FS_KHZ ≤ win3_capacity Z_MAX_FS_KHZ
      ∧ 2 * (AudioDevice.FRAME_LEN_MS * PROC_FS_KHZ) ≤ buf_capacity Z_MAX_FS_KHZ := by
  unfold PROC_FS_KHZ at h
  simp only [PROC_FS_KHZ, AudioDevice.FRAME_LEN_MS, AudioDevice.FRAME_LEN, AudioDevice.FS_KHZ,
    AudioDevice.REC_BUF_SIZE_IN_SAMPLES, AudioDevice.PLAY_BUF_SIZE_IN_SAMPLES,
    AudioDevice.FS_REC_HZ, AudioDevice.FS_PLAY_HZ, win3_capacity, buf_capacity, WIN_L3,
    Z_REST_BUF_SZ_MS]
  refine ⟨trivial, by decide, by decide, by decide, by decide, trivial, trivial, by omega,
    by omega⟩

/-- Witness for C12: the maximum rate equal to the internal rate, where a frame fills
`win3` exactly. -/
theorem frame_size_consistency_witness :
    PROC_FS_KHZ ≤ 16
      ∧ AudioDevice.FRAME_LEN_MS * PROC_FS_KHZ ≤ win3_capacity 16
      ∧ 2 * (AudioDevice.FRAME_LEN_MS * PROC_FS_KHZ) ≤ buf_capacity 16 :=
  ⟨by decide, (frame_size_consistency 16 (by decide)).2.2.2.2.2.2.2.1,
    (frame_size_consistency 16 (by decide)).2.2.2.2.2.2.2.2⟩

end Vocoder

namespace StressTest

/-! ## Basic facts about the RTP helper and the transport callback -/

theorem header_byte_eq (x shift : Nat) : header_byte x shift = x / 2 ^ shift % 256 := by
  have h : (0xFF : Nat) = 2 ^ 8 - 1 := rfl
  unfold header_byte
  rw [Nat.shiftRight_eq_div_pow, h, Nat.and_pow_two_sub_one_eq_mod]
  simp

theorem header_bytes_length (pt sn ts ss : Nat) : (header_bytes pt sn ts ss).length = 12 := rfl

theorem MakeRTPheader_eq (buf : List Nat) (h : 12 ≤ buf.length) (pt sn ts ss : Nat) :
    MakeRTPheader buf pt sn ts ss
      = some (header_bytes (pt % 2 ^ 8) (sn % 2 ^ 16) (ts % 2 ^ 32) (ss % 2 ^ 32)
          ++ buf.drop 12, RTP_HEADER_IN_BYTES) := by
  unfold MakeRTPheader
  rw [if_neg (not_lt.mpr h)]
  rcases buf with _ | ⟨a0, _ | ⟨a1, _ | ⟨a2, _ | ⟨a3, _ | ⟨a4, _ | ⟨a5, _ | ⟨a6, _ | ⟨a7,
    _ | ⟨a8, _ | ⟨a9, _ | ⟨a10, _ | ⟨a11, rest⟩⟩⟩⟩⟩⟩⟩⟩⟩⟩⟩⟩
  all_goals try (simp at h; done)
  rfl

theorem header_be16 (sn : Nat) (h : sn < 2 ^ 16) :
    be16 (header_byte sn 8) (header_byte sn 0) = sn := by
  simp only [be16, header_byte_eq]
  norm_num at h ⊢
  omega

theorem header_be32 (x : Nat) (h : x < 2 ^ 32) :
    be32 (header_byte x 24) (header_byte x 16) (header_byte x 8) (header_byte x 0) = x := by
  simp only [be32, header_byte_eq]
  norm_num at h ⊢
  omega

theorem header_byte_zero_shift (pt : Nat) (h : pt < 2 ^ 8) : header_byte pt 0 = pt := by
  simp only [header_byte_eq]
  norm_num at h ⊢
  omega

theorem byte_at_header (pt sn ts ss : Nat) (D : List Nat) :
    byte_at (header_bytes pt sn ts ss ++ D) 0 = 0x80
      ∧ byte_at (header_bytes pt sn ts ss ++ D) 1 = header_byte pt 0
      ∧ byte_at (header_bytes pt sn ts ss ++ D) 2 = header_byte sn 8
      ∧ byte_at (header_bytes pt sn ts ss ++ D) 3 = header_byte sn 0
      ∧ byte_at (header_bytes pt sn ts ss ++ D) 4 = header_byte ts 24
      ∧ byte_at (header_bytes pt sn ts ss ++ D) 5 = header_byte ts 16
      ∧ byte_at (header_bytes pt sn ts ss ++ D) 6 = header_byte ts 8
      ∧ byte_at (header_bytes pt sn ts ss ++ D) 7 = header_byte ts 0
      ∧ byte_at (header_bytes pt sn ts ss ++ D) 8 = header_byte ss 24
      ∧ byte_at (header_bytes pt sn ts ss ++ D) 9 = header_byte ss 16
      ∧ byte_at (header_bytes pt sn ts ss ++ D) 10 = header_byte ss 8
      ∧ byte_at (header_bytes pt sn ts ss ++ D) 11 = header_byte ss 0 :=
  ⟨rfl, rfl, rfl, rfl, rfl, rfl, rfl, rfl, rfl, rfl, rfl, rfl⟩

theorem header_decode (pt sn ts ss : Nat) (D : List Nat) (hpt : pt < 2 ^ 8)
    (hsn : sn < 2 ^ 16) (hts : ts < 2 ^ 32) (hss : ss < 2 ^ 32) :
    byte_at (header_bytes pt sn ts ss ++ D) 0 = 0x80
      ∧ byte_at (header_bytes pt sn ts ss ++ D) 1 = pt
      ∧ be16 (byte_at (header_bytes pt sn ts ss ++ D) 2)
          (byte_at (header_bytes pt sn ts ss ++ D) 3) = sn
      ∧ be32 (byte_at (header_bytes pt sn ts ss ++ D) 4)
          (byte_at (header_bytes pt sn ts ss ++ D) 5)
          (byte_at (header_bytes pt sn ts ss ++ D) 6)
          (byte_at (header_bytes pt sn ts ss ++ D) 7) = ts
      ∧ be32 (byte_at (header_bytes pt sn ts ss ++ D) 8)
          (byte_at (header_bytes pt sn ts ss ++ D) 9)
          (byte_at (header_bytes pt sn ts ss ++ D) 10)
          (byte_at (header_bytes pt sn ts ss ++ D) 11) = ss := by
  obtain ⟨b0, b1, b2, b3, b4, b5, b6, b7, b8, b9, b10, b11⟩ := byte_at_header pt sn ts ss D
  rw [b0, b1, b2, b3, b4, b5, b6, b7, b8, b9, b10, b11]
  exact ⟨rfl, header_byte_zero_shift pt hpt, header_be16 sn hsn, header_be32 ts hts,
    header_be32 ss hss⟩

theorem header_cells (pt sn ts ss : Nat) (D : List Nat) :
    (∀ i, i < 12 → byte_at (header_bytes pt sn ts ss ++ D) i < 256)
      ∧ byte_at (header_bytes pt sn ts ss ++ D) 1 = pt % 256
      ∧ byte_at (header_bytes pt sn ts ss ++ D) 2 = sn / 2 ^ 8 % 256
      ∧ byte_at (header_bytes pt sn ts ss ++ D) 3 = sn % 256
      ∧ byte_at (header_bytes pt sn ts ss ++ D) 4 = ts / 2 ^ 24 % 256
      ∧ byte_at (header_bytes pt sn ts ss ++ D) 5 = ts / 2 ^ 16 % 256
      ∧ byte_at (header_bytes pt sn ts ss ++ D) 6 = ts / 2 ^ 8 % 256
      ∧ byte_at (header_bytes pt sn ts ss ++ D) 7 = ts % 256
      ∧ byte_at (header_bytes pt sn ts ss ++ D) 8 = ss / 2 ^ 24 % 256
      ∧ byte_at (header_bytes pt sn ts ss ++ D) 9 = ss / 2 ^ 16 % 256
      ∧ byte_at (header_bytes pt sn ts ss ++ D) 10 = ss / 2 ^ 8 % 256
      ∧ byte_at (header_bytes pt sn ts ss ++ D) 11 = ss % 256 := by
  obtain ⟨b0, b1, b2, b3, b4, b5, b6, b7, b8, b9, b10, b11⟩ := byte_at_header pt sn ts ss D
  have z : ∀ x : Nat, header_byte x 0 = x % 256 := by
    intro x
    rw [header_byte_eq, Nat.pow_zero, Nat.div_one]
  rw [header_byte_eq] at b2 b4 b5 b6 b8 b9 b10
  rw [z] at b1 b3 b7 b11
  refine ⟨?_, b1, b2, b3, b4, b5, b6, b7, b8, b9, b10, b11⟩
  intro i hi
  have hm : ∀ x : Nat, x % 256 < 256 := fun x => Nat.mod_lt x (by norm_num)
  interval_cases i
  · rw [b0]; norm_num
  · rw [b1]; exact hm _
  · rw [b2]; exact hm _
  · rw [b3]; exact hm _
  · rw [b4]; exact hm _
  · rw [b5]; exact hm _
  · rw [b6]; exact hm _
  · rw [b7]; exact hm _
  · rw [b8]; exact hm _
  · rw [b9]; exact hm _
  · rw [b10]; exact hm _
  · rw [b11]; exact hm _

theorem memcpy_after_header (H D src : List Nat) (off : Nat) (hH : H.length = off)
    (h : src.length ≤ D.length) :
    memcpy (H ++ D) off src = some (H ++ src ++ D.drop src.length) := by
  subst hH
  unfold memcpy
  rw [if_pos (by rw [List.length_append]; omega)]
  simp

theorem to_int32_of_small (x : Nat) (h : x < 2 ^ 31) : to_int32 x = (x : Int) := by
  have h1 : x % 2 ^ 32 = x := Nat.mod_eq_of_lt (by omega)
  unfold to_int32
  rw [h1, if_pos h]

theorem SendData_of_lt (t : TransportCallBack)
    (hlen : t.packet_.length = RTP_HEADER_IN_BYTES + MAX_PACKET_SIZE_BYTES)
    (pt ts : Nat) (payload : List Nat) (ms : Int)
    (hn : payload.length < MAX_PACKET_SIZE_BYTES) :
    ∃ t1, SendData t pt ts payload ms = some (t1, ((payload.length + 12 : Nat) : Int))
      ∧ t1.packet_ = header_bytes (pt % 2 ^ 8) (t.seqNo_ % 2 ^ 16)
            ((ts % 2 ^ 32 + t.timestamp_offset_) % 2 ^ 32 % 2 ^ 32) (t.ssrc_ % 2 ^ 32)
          ++ payload ++ t.packet_.drop (12 + payload.length)
      ∧ t1.packetLenBytes_ = payload.length + 12
      ∧ t1.seqNo_ = (t.seqNo_ + 1) % 2 ^ 32
      ∧ t1.timestamp_offset_ = t.timestamp_offset_
      ∧ t1.ssrc_ = t.ssrc_
      ∧ t1.fp_ = t.fp_ ++ [{ ms := ms, packetLenBytes := payload.length + 12,
                             bytes := t1.packet_.take (payload.length + 12) }] := by
  unfold RTP_HEADER_IN_BYTES MAX_PACKET_SIZE_BYTES at hlen
  unfold MAX_PACKET_SIZE_BYTES at hn
  have hm : memcpy (header_bytes (pt % 2 ^ 8) (t.seqNo_ % 2 ^ 16)
      ((ts % 2 ^ 32 + t.timestamp_offset_) % 2 ^ 32 % 2 ^ 32) (t.ssrc_ % 2 ^ 32)
        ++ t.packet_.drop 12) RTP_HEADER_IN_BYTES payload
      = some (header_bytes (pt % 2 ^ 8) (t.seqNo_ % 2 ^ 16)
          ((ts % 2 ^ 32 + t.timestamp_offset_) % 2 ^ 32 % 2 ^ 32) (t.ssrc_ % 2 ^ 32)
          ++ payload ++ t.packet_.drop (12 + payload.length)) := by
    have hd : payload.length ≤ (t.packet_.drop 12).length := by
      rw [List.length_drop]; omega
    rw [memcpy_after_header (header_bytes (pt % 2 ^ 8) (t.seqNo_ % 2 ^ 16)
      ((ts % 2 ^ 32 + t.timestamp_offset_) % 2 ^ 32 % 2 ^ 32) (t.ssrc_ % 2 ^ 32))
      (t.packet_.drop 12) payload RTP_HEADER_IN_BYTES rfl hd, List.drop_drop]
  have hl : (payload.length % 2 ^ 32 + RTP_HEADER_IN_BYTES % 2 ^ 32) % 2 ^ 32
      = payload.length + 12 := by
    unfold RTP_HEADER_IN_BYTES; omega
  unfold SendData
  simp only [MakeRTPheader_eq t.packet_ (by omega), MAX_PACKET_SIZE_BYTES, if_pos hn, hm, hl]
  rw [to_int32_of_small _ (by omega)]
  exact ⟨_, rfl, rfl, rfl, rfl, rfl, rfl, rfl⟩

theorem SendData_of_ge (t : TransportCallBack)
    (hlen : t.packet_.length = RTP_HEADER_IN_BYTES + MAX_PACKET_SIZE_BYTES)
    (pt ts : Nat) (payload : List Nat) (ms : Int)
    (hn : ¬ payload.length < MAX_PACKET_SIZE_BYTES) :
    ∃ t1, SendData t pt ts payload ms = some (t1, 0)
      ∧ t1.packet_ = header_bytes (pt % 2 ^ 8) (t.seqNo_ % 2 ^ 16)
            ((ts % 2 ^ 32 + t.timestamp_offset_) % 2 ^ 32 % 2 ^ 32) (t.ssrc_ % 2 ^ 32)
          ++ t.packet_.drop 12
      ∧ t1.packetLenBytes_ = 0
      ∧ t1.seqNo_ = (t.seqNo_ + 1) % 2 ^ 32
      ∧ t1.timestamp_offset_ = t.timestamp_offset_
      ∧ t1.ssrc_ = t.ssrc_
      ∧ t1.fp_ = t.fp_ ++ [{ ms := ms, packetLenBytes := 0, bytes := [] }] := by
  unfold RTP_HEADER_IN_BYTES MAX_PACKET_SIZE_BYTES at hlen
  unfold MAX_PACKET_SIZE_BYTES at hn
  unfold SendData
  simp only [MakeRTPheader_eq t.packet_ (by omega), MAX_PACKET_SIZE_BYTES, if_neg hn]
  rw [to_int32_of_small 0 (by norm_num)]
  exact ⟨_, rfl, rfl, rfl, rfl, rfl, rfl, rfl⟩

theorem SendData_total (t : TransportCallBack)
    (hlen : t.packet_.length = RTP_HEADER_IN_BYTES + MAX_PACKET_SIZE_BYTES)
    (pt ts : Nat) (payload : List Nat) (ms : Int) :
    ∃ t1 r, SendData t pt ts payload ms = some (t1, r)
      ∧ t1.packet_.length = RTP_HEADER_IN_BYTES + MAX_PACKET_SIZE_BYTES
      ∧ t1.seqNo_ = (t.seqNo_ + 1) % 2 ^ 32
      ∧ t1.timestamp_offset_ = t.timestamp_offset_
      ∧ t1.ssrc_ = t.ssrc_ := by
  by_cases hn : payload.length < MAX_PACKET_SIZE_BYTES
  · obtain ⟨t1, h, hp, _, hs, ho, hc, _⟩ := SendData_of_lt t hlen pt ts payload ms hn
    refine ⟨t1, _, h, ?_, hs, ho, hc⟩
    unfold RTP_HEADER_IN_BYTES MAX_PACKET_SIZE_BYTES at hlen ⊢
    unfold MAX_PACKET_SIZE_BYTES at hn
    rw [hp, List.length_append, List.length_append, header_bytes_length, List.length_drop]
    omega
  · obtain ⟨t1, h, hp, _, hs, ho, hc, _⟩ := SendData_of_ge t hlen pt ts payload ms hn
    refine ⟨t1, _, h, ?_, hs, ho, hc⟩
    unfold RTP_HEADER_IN_BYTES MAX_PACKET_SIZE_BYTES at hlen ⊢
    rw [hp, List.length_append, header_bytes_length, List.length_drop]
    omega

theorem SendData_run_total (calls : List SendCall) :
    ∀ t : TransportCallBack,
      t.packet_.length = RTP_HEADER_IN_BYTES + MAX_PACKET_SIZE_BYTES → t.seqNo_ < 2 ^ 32 →
      ∃ t1, SendData_run t calls = some t1
        ∧ t1.packet_.length = RTP_HEADER_IN_BYTES + MAX_PACKET_SIZE_BYTES
        ∧ t1.seqNo_ = (t.seqNo_ + calls.length) % 2 ^ 32
        ∧ t1.timestamp_offset_ = t.timestamp_offset_
        ∧ t1.ssrc_ = t.ssrc_ := by
  induction calls with
  | nil =>
    intro t hlen hseq
    refine ⟨t, rfl, hlen, ?_, rfl, rfl⟩
    rw [List.length_nil, Nat.add_zero, Nat.mod_eq_of_lt hseq]
  | cons c cs ih =>
    intro t hlen _
    obtain ⟨t1, r, h, hl, hs, ho, hc⟩ :=
      SendData_total t hlen c.payload_type c.timestamp c.payload_data c.ms
    obtain ⟨t2, h2, hl2, hs2, ho2, hc2⟩ :=
      ih t1 hl (by rw [hs]; exact Nat.mod_lt _ (by norm_num))
    refine ⟨t2, ?_, hl2, ?_, ho2.trans ho, hc2.trans hc⟩
    · simp only [SendData_run, h]
      exact h2
    · rw [hs2, hs, List.length_cons]
      omega

theorem TransportCallBack_ctor_packet_length (rand : Nat)
    (uninit : Fin (RTP_HEADER_IN_BYTES + MAX_PACKET_SIZE_BYTES) → Nat) :
    (TransportCallBack_ctor rand uninit).packet_.length
      = RTP_HEADER_IN_BYTES + MAX_PACKET_SIZE_BYTES := by
  simp only [TransportCallBack_ctor, List.length_ofFn]

theorem SendData_record_of_lt (t : TransportCallBack)
    (hlen : t.packet_.length = RTP_HEADER_IN_BYTES + MAX_PACKET_SIZE_BYTES)
    (pt ts : Nat) (payload : List Nat) (ms : Int)
    (hn : payload.length < MAX_PACKET_SIZE_BYTES) :
    ∃ t1 r, SendData t pt ts payload ms = some (t1, ((payload.length + 12 : Nat) : Int))
      ∧ t1.fp_ = t.fp_ ++ [r]
      ∧ r.packetLenBytes = payload.length + 12
      ∧ r.bytes.length = payload.length + 12 := by
  obtain ⟨t1, h, hp, _, _, _, _, hf⟩ := SendData_of_lt t hlen pt ts payload ms hn
  refine ⟨t1, _, h, hf, rfl, ?_⟩
  show (List.take (payload.length + 12) t1.packet_).length = payload.length + 12
  unfold RTP_HEADER_IN_BYTES MAX_PACKET_SIZE_BYTES at hlen
  unfold MAX_PACKET_SIZE_BYTES at hn
  rw [List.length_take, hp, List.length_append, List.length_append, header_bytes_length,
    List.length_drop]
  omega

/-! ## The claims about the stress test -/

/-- C13: round trip of `MakeRTPheader`.  For every buffer of at least 12 bytes and every
`payloadType` (8 bit), `seqNum` (16 bit), `timeStamp` (32 bit) and `ssrc` (32 bit), the
function returns 12 and writes exactly the bytes 0 to 11: byte 0 is 0x80, byte 1 is
`payloadType`, and the big-endian values of the bytes 2..3, 4..7 and 8..11 are `seqNum`,
`timeStamp` and `ssrc`; the bytes from 12 on and the length of the buffer are unchanged.
Each of the twelve cells holds a value below 256, namely the byte of its argument that the
shift and the mask of the source select. -/
theorem MakeRTPheader_round_trip (rtpHeader : List Nat) (payloadType seqNum timeStamp ssrc : Nat)
    (hbuf : 12 ≤ rtpHeader.length) (hpt : payloadType < 2 ^ 8) (hsn : seqNum < 2 ^ 16)
    (hts : timeStamp < 2 ^ 32) (hss : ssrc < 2 ^ 32) :
    ∃ h, MakeRTPheader rtpHeader payloadType seqNum timeStamp ssrc = some (h, 12)
      ∧ RTP_HEADER_IN_BYTES = 12
      ∧ h.length = rtpHeader.length
      ∧ (∀ i, 12 ≤ i → h[i]? = rtpHeader[i]?)
      ∧ byte_at h 0 = 0x80
      ∧ byte_at h 1 = payloadType
      ∧ be16 (byte_at h 2) (byte_at h 3) = seqNum
      ∧ be32 (byte_at h 4) (byte_at h 5) (byte_at h 6) (byte_at h 7) = timeStamp
      ∧ be32 (byte_at h 8) (byte_at h 9) (byte_at h 10) (byte_at h 11) = ssrc
      ∧ (∀ i, i < 12 → byte_at h i < 256)
      ∧ byte_at h 2 = seqNum / 2 ^ 8 % 256
      ∧ byte_at h 3 = seqNum % 256
      ∧ byte_at h 4 = timeStamp / 2 ^ 24 % 256
      ∧ byte_at h 5 = timeStamp / 2 ^ 16 % 256
      ∧ byte_at h 6 = timeStamp / 2 ^ 8 % 256
      ∧ byte_at h 7 = timeStamp % 256
      ∧ byte_at h 8 = ssrc / 2 ^ 24 % 256
      ∧ byte_at h 9 = ssrc / 2 ^ 16 % 256
      ∧ byte_at h 10 = ssrc / 2 ^ 8 % 256
      ∧ byte_at h 11 = ssrc % 256 := by
  have e := MakeRTPheader_eq rtpHeader hbuf payloadType seqNum timeStamp ssrc
  rw [Nat.mod_eq_of_lt hpt, Nat.mod_eq_of_lt hsn, Nat.mod_eq_of_lt hts,
    Nat.mod_eq_of_lt hss] at e
  obtain ⟨d0, d1, d2, d3, d4⟩ :=
    header_decode payloadType seqNum timeStamp ssrc (rtpHeader.drop 12) hpt hsn hts hss
  obtain ⟨hlt, _, c2, c3, c4, c5, c6, c7, c8, c9, c10, c11⟩ :=
    header_cells payloadType seqNum timeStamp ssrc (rtpHeader.drop 12)
  refine ⟨_, e, rfl, ?_, ?_, d0, d1, d2, d3, d4, hlt, c2, c3, c4, c5, c6, c7, c8, c9, c10,
    c11⟩
  · rw [List.length_append, header_bytes_length, List.length_drop]
    omega
  · intro i hi
    rw [List.getElem?_append_right (by rw [header_bytes_length]; exact hi),
      header_bytes_length, List.getElem?_drop]
    congr 1
    omega

/-- Witness for C13: a buffer of 14 bytes, payload type 0x63, sequence number 0x1234,
time stamp 0xDEADBEEF and source 0x01020304. -/
theorem MakeRTPheader_round_trip_witness :
    12 ≤ (List.replicate 14 7).length ∧ 0x63 < 2 ^ 8 ∧ 0x1234 < 2 ^ 16
      ∧ 0xDEADBEEF < 2 ^ 32 ∧ 0x01020304 < 2 ^ 32
      ∧ ∃ h, MakeRTPheader (List.replicate 14 7) 0x63 0x1234 0xDEADBEEF 0x01020304
            = some (h, 12)
          ∧ RTP_HEADER_IN_BYTES = 12
          ∧ h.length = (List.replicate 14 7).length
          ∧ (∀ i, 12 ≤ i → h[i]? = (List.replicate 14 7)[i]?)
          ∧ byte_at h 0 = 0x80
          ∧ byte_at h 1 = 0x63
          ∧ be16 (byte_at h 2) (byte_at h 3) = 0x1234
          ∧ be32 (byte_at h 4) (byte_at h 5) (byte_at h 6) (byte_at h 7) = 0xDEADBEEF
          ∧ be32 (byte_at h 8) (byte_at h 9) (byte_at h 10) (byte_at h 11) = 0x01020304
          ∧ (∀ i, i < 12 → byte_at h i < 256)
          ∧ byte_at h 2 = 0x1234 / 2 ^ 8 % 256
          ∧ byte_at h 3 = 0x1234 % 256
          ∧ byte_at h 4 = 0xDEADBEEF / 2 ^ 24 % 256
          ∧ byte_at h 5 = 0xDEADBEEF / 2 ^ 16 % 256
          ∧ byte_at h 6 = 0xDEADBEEF / 2 ^ 8 % 256
          ∧ byte_at h 7 = 0xDEADBEEF % 256
          ∧ byte_at h 8 = 0x01020304 / 2 ^ 24 % 256
          ∧ byte_at h 9 = 0x01020304 / 2 ^ 16 % 256
          ∧ byte_at h 10 = 0x01020304 / 2 ^ 8 % 256
          ∧ byte_at h 11 = 0x01020304 % 256 :=
  ⟨by decide, by decide, by decide, by decide, by decide,
    MakeRTPheader_round_trip (List.replicate 14 7) 0x63 0x1234 0xDEADBEEF 0x01020304
      (by decide) (by decide) (by decide) (by decide) (by decide)⟩

/-- C14: packet length of `SendData`.  On an object whose `packet_` has its declared size
of 1012 bytes, for every payload of length `n` the call returns; the recorded and the
returned packet length is `n + 12` when `n < MAX_PACKET_SIZE_BYTES` (1000) and 0 otherwise;
in the first case the payload stands unchanged in `packet_[12 .. 12 + n)` and `12 + n` does
not exceed the size `RTP_HEADER_IN_BYTES + MAX_PACKET_SIZE_BYTES` = 1012 of `packet_`, whose
length is kept. -/
theorem SendData_packet_length (t : TransportCallBack)
    (hlen : t.packet_.length = RTP_HEADER_IN_BYTES + MAX_PACKET_SIZE_BYTES)
    (payload_type timestamp : Nat) (payload_data : List Nat) (ms : Int) :
    ∃ t1, SendData t payload_type timestamp payload_data ms
          = some (t1, if payload_data.length < MAX_PACKET_SIZE_BYTES
              then ((payload_data.length + 12 : Nat) : Int) else 0)
      ∧ t1.packetLenBytes_
          = (if payload_data.length < MAX_PACKET_SIZE_BYTES then payload_data.length + 12 else 0)
      ∧ (∃ r, t1.fp_ = t.fp_ ++ [r] ∧ r.packetLenBytes = t1.packetLenBytes_
          ∧ r.bytes.length = r.packetLenBytes)
      ∧ MAX_PACKET_SIZE_BYTES = 1000
      ∧ RTP_HEADER_IN_BYTES + MAX_PACKET_SIZE_BYTES = 1012
      ∧ t1.packet_.length = RTP_HEADER_IN_BYTES + MAX_PACKET_SIZE_BYTES
      ∧ (payload_data.length < MAX_PACKET_SIZE_BYTES →
          12 + payload_data.length ≤ RTP_HEADER_IN_BYTES + MAX_PACKET_SIZE_BYTES
            ∧ (t1.packet_.drop 12).take payload_data.length = payload_data
            ∧ ∀ i, i < payload_data.length → t1.packet_[12 + i]? = payload_data[i]?) := by
  obtain ⟨t2, r2, h2, hl2, _⟩ := SendData_total t hlen payload_type timestamp payload_data ms
  by_cases hn : payload_data.length < MAX_PACKET_SIZE_BYTES
  · obtain ⟨t1, h, hp, hb, _, _, _, hf⟩ :=
      SendData_of_lt t hlen payload_type timestamp payload_data ms hn
    have ht : t2 = t1 := by
      rw [h] at h2
      exact (Prod.mk.inj (Option.some.inj h2)).1.symm
    subst ht
    have hdrop : t2.packet_.drop 12 = payload_data ++ t.packet_.drop (12 + payload_data.length) := by
      rw [hp, List.append_assoc, List.drop_left' (header_bytes_length _ _ _ _)]
    have hcap : 12 + payload_data.length ≤ RTP_HEADER_IN_BYTES + MAX_PACKET_SIZE_BYTES := by
      unfold MAX_PACKET_SIZE_BYTES at hn
      unfold RTP_HEADER_IN_BYTES MAX_PACKET_SIZE_BYTES
      omega
    refine ⟨t2, ?_, ?_, ⟨_, hf, hb.symm, ?_⟩, rfl, rfl, hl2, fun _ => ⟨hcap, ?_, ?_⟩⟩
    · rw [h, if_pos hn]
    · rw [hb, if_pos hn]
    · show (List.take (payload_data.length + 12) t2.packet_).length = payload_data.length + 12
      rw [List.length_take]
      exact Nat.min_eq_left (by rw [hl2]; omega)
    · rw [hdrop, List.take_left' rfl]
    · intro i hi
      rw [← List.getElem?_drop, hdrop, List.getElem?_append_left hi]
  · obtain ⟨t1, h, _, hb, _, _, _, hf⟩ :=
      SendData_of_ge t hlen payload_type timestamp payload_data ms hn
    have ht : t2 = t1 := by
      rw [h] at h2
      exact (Prod.mk.inj (Option.some.inj h2)).1.symm
    subst ht
    refine ⟨t2, ?_, ?_, ⟨_, hf, hb.symm, rfl⟩, rfl, rfl, hl2, fun hlt => absurd hlt hn⟩
    · rw [h, if_neg hn]
    · rw [hb, if_neg hn]

/-- Witness for C14: the first call on a new object with a payload of three bytes. -/
theorem SendData_packet_length_witness :
    (TransportCallBack_ctor 5 (fun _ => 0)).packet_.length
        = RTP_HEADER_IN_BYTES + MAX_PACKET_SIZE_BYTES
      ∧ ∃ t1, SendData (TransportCallBack_ctor 5 (fun _ => 0)) 1 2 [9, 8, 7] 0
            = some (t1, if [9, 8, 7].length < MAX_PACKET_SIZE_BYTES
                then (([9, 8, 7].length + 12 : Nat) : Int) else 0)
          ∧ t1.packetLenBytes_
              = (if [9, 8, 7].length < MAX_PACKET_SIZE_BYTES then [9, 8, 7].length + 12 else 0) :=
  ⟨TransportCallBack_ctor_packet_length 5 (fun _ => 0),
    (SendData_packet_length (TransportCallBack_ctor 5 (fun _ => 0))
      (TransportCallBack_ctor_packet_length 5 (fun _ => 0)) 1 2 [9, 8, 7] 0).imp
      (fun _ h => ⟨h.1, h.2.1⟩)⟩

/-- C15 at the failing input: a payload of 999 bytes passes the test
`payload_len_bytes < MAX_PACKET_SIZE_BYTES`, so `SendData` returns 1011 and writes a record
of 1011 bytes into the RTP stream file; the array `RTPpacketBuf` of the playback loop has
1000 bytes, so the record does not fit and the read has no result. -/
theorem read_back_exceeds_buffer :
    ∃ t1, SendData (TransportCallBack_ctor 0 (fun _ => 0)) 0 0 (List.replicate 999 0) 0
          = some (t1, 1011)
      ∧ RTPpacketBuf_size = 1000
      ∧ ∃ r, t1.fp_ = [r] ∧ r.packetLenBytes = 1011 ∧ r.bytes.length = 1011
          ∧ RTPpacketBuf_size < r.packetLenBytes
          ∧ ∀ buf : List Nat, buf.length = RTPpacketBuf_size → read_record buf r = none := by
  have hrep : (List.replicate 999 (0 : Nat)).length = 999 := List.length_replicate 999 0
  obtain ⟨t1, r, h, hr, hrl, hrb⟩ :=
    SendData_record_of_lt (TransportCallBack_ctor 0 (fun _ => 0))
      (TransportCallBack_ctor_packet_length 0 (fun _ => 0)) 0 0 (List.replicate 999 0) 0
      (by rw [hrep]; decide)
  rw [hrep] at h hrl hrb
  refine ⟨t1, h, rfl, r, hr, hrl, hrb, ?_, fun buf hbuf => ?_⟩
  · rw [hrl]; decide
  · unfold read_record memcpy
    rw [if_neg (by rw [hrb, hbuf]; decide)]

/-- C16: sequence numbering.  For every sequence of `k` calls of `SendData` on a new
object, with payloads of any length, the calls return, `seqNo_` starts at 0 and is `k` mod
2^32 after them, and the header built by the next call carries `k` mod 2^16 in the bytes
2..3 and the timestamp argument plus `timestamp_offset_` modulo 2^32 in the bytes 4..7:
each of the twelve header cells is below 256, the cells 2 and 3 are the high and the low
byte of `k` mod 2^16 and the cells 4 to 7 are the four bytes of the timestamp sum, most
significant first. -/
theorem SendData_sequence_numbering (rand : Nat)
    (uninit : Fin (RTP_HEADER_IN_BYTES + MAX_PACKET_SIZE_BYTES) → Nat)
    (calls : List SendCall) (c : SendCall) :
    (TransportCallBack_ctor rand uninit).seqNo_ = 0
      ∧ ∃ t t1 r, SendData_run (TransportCallBack_ctor rand uninit) calls = some t
          ∧ t.seqNo_ = calls.length % 2 ^ 32
          ∧ t.timestamp_offset_ = rand % 2 ^ 32
          ∧ SendData t c.payload_type c.timestamp c.payload_data c.ms = some (t1, r)
          ∧ t1.seqNo_ = (calls.length + 1) % 2 ^ 32
          ∧ be16 (byte_at t1.packet_ 2) (byte_at t1.packet_ 3) = calls.length % 2 ^ 16
          ∧ be32 (byte_at t1.packet_ 4) (byte_at t1.packet_ 5) (byte_at t1.packet_ 6)
              (byte_at t1.packet_ 7) = (c.timestamp + t.timestamp_offset_) % 2 ^ 32
          ∧ (∀ i, i < 12 → byte_at t1.packet_ i < 256)
          ∧ byte_at t1.packet_ 2 = calls.length % 2 ^ 16 / 2 ^ 8
          ∧ byte_at t1.packet_ 3 = calls.length % 2 ^ 16 % 256
          ∧ byte_at t1.packet_ 4 = (c.timestamp + t.timestamp_offset_) % 2 ^ 32 / 2 ^ 24
          ∧ byte_at t1.packet_ 5 = (c.timestamp + t.timestamp_offset_) % 2 ^ 32 / 2 ^ 16 % 256
          ∧ byte_at t1.packet_ 6 = (c.timestamp + t.timestamp_offset_) % 2 ^ 32 / 2 ^ 8 % 256
          ∧ byte_at t1.packet_ 7 = (c.timestamp + t.timestamp_offset_) % 2 ^ 32 % 256 := by
  refine ⟨rfl, ?_⟩
  obtain ⟨t, hrun, hlen, hseq, hoff, _⟩ :=
    SendData_run_total calls (TransportCallBack_ctor rand uninit)
      (TransportCallBack_ctor_packet_length rand uninit)
      (by show 0 < 2 ^ 32; norm_num)
  have hseq0 : t.seqNo_ = calls.length % 2 ^ 32 := by
    rw [hseq]
    show (0 + calls.length) % 2 ^ 32 = calls.length % 2 ^ 32
    rw [Nat.zero_add]
  have hoff0 : t.timestamp_offset_ = rand % 2 ^ 32 := hoff
  have key : ∀ (t1 : TransportCallBack) (D : List Nat),
      t1.packet_ = header_bytes (c.payload_type % 2 ^ 8) (t.seqNo_ % 2 ^ 16)
          ((c.timestamp % 2 ^ 32 + t.timestamp_offset_) % 2 ^ 32 % 2 ^ 32) (t.ssrc_ % 2 ^ 32)
        ++ D →
      be16 (byte_at t1.packet_ 2) (byte_at t1.packet_ 3) = calls.length % 2 ^ 16
        ∧ be32 (byte_at t1.packet_ 4) (byte_at t1.packet_ 5) (byte_at t1.packet_ 6)
            (byte_at t1.packet_ 7) = (c.timestamp + t.timestamp_offset_) % 2 ^ 32
        ∧ (∀ i, i < 12 → byte_at t1.packet_ i < 256)
        ∧ byte_at t1.packet_ 2 = calls.length % 2 ^ 16 / 2 ^ 8
        ∧ byte_at t1.packet_ 3 = calls.length % 2 ^ 16 % 256
        ∧ byte_at t1.packet_ 4 = (c.timestamp + t.timestamp_offset_) % 2 ^ 32 / 2 ^ 24
        ∧ byte_at t1.packet_ 5 = (c.timestamp + t.timestamp_offset_) % 2 ^ 32 / 2 ^ 16 % 256
        ∧ byte_at t1.packet_ 6 = (c.timestamp + t.timestamp_offset_) % 2 ^ 32 / 2 ^ 8 % 256
        ∧ byte_at t1.packet_ 7 = (c.timestamp + t.timestamp_offset_) % 2 ^ 32 % 256 := by
    intro t1 D hp
    obtain ⟨_, _, d2, d3, _⟩ := header_decode (c.payload_type % 2 ^ 8) (t.seqNo_ % 2 ^ 16)
      ((c.timestamp % 2 ^ 32 + t.timestamp_offset_) % 2 ^ 32 % 2 ^ 32) (t.ssrc_ % 2 ^ 32) D
      (Nat.mod_lt _ (by norm_num)) (Nat.mod_lt _ (by norm_num)) (Nat.mod_lt _ (by norm_num))
      (Nat.mod_lt _ (by norm_num))
    obtain ⟨hlt, _, c2, c3, c4, c5, c6, c7, _⟩ :=
      header_cells (c.payload_type % 2 ^ 8) (t.seqNo_ % 2 ^ 16)
        ((c.timestamp % 2 ^ 32 + t.timestamp_offset_) % 2 ^ 32 % 2 ^ 32) (t.ssrc_ % 2 ^ 32) D
    rw [hp]
    refine ⟨?_, ?_, hlt, ?_, ?_, ?_, ?_, ?_, ?_⟩
    · rw [d2, hseq0]; omega
    · rw [d3]; omega
    · rw [c2, hseq0]; omega
    · rw [c3, hseq0]; omega
    · rw [c4]; omega
    · rw [c5]; omega
    · rw [c6]; omega
    · rw [c7]; omega
  by_cases hn : c.payload_data.length < MAX_PACKET_SIZE_BYTES
  · obtain ⟨t1, h, hp, _, hs, _, _, _⟩ :=
      SendData_of_lt t hlen c.payload_type c.timestamp c.payload_data c.ms hn
    rw [List.append_assoc] at hp
    exact ⟨t, t1, _, hrun, hseq0, hoff0, h, by rw [hs, hseq0]; omega, key t1 _ hp⟩
  · obtain ⟨t1, h, hp, _, hs, _, _, _⟩ :=
      SendData_of_ge t hlen c.payload_type c.timestamp c.payload_data c.ms hn
    exact ⟨t, t1, _, hrun, hseq0, hoff0, h, by rw [hs, hseq0]; omega, key t1 _ hp⟩

end StressTest
